import Mathlib

/-!
Verification of the HTTP-disguise transport listener and the byte-counting
connection wrapper (package `stat` / package `http` of the repository).

The Go sources are shallowly embedded: each Go function the claims touch is
translated into an executable Lean definition over explicit data.  External
effects (the underlying sink of the flush writer, the wrapped connection of
the byte counter, the raw peer address) are supplied as explicit arguments
describing the outcome the environment produces, and the observable effects
of a request handler (status, header writes, flush, delegation to the
per-connection callback, the resolved remote address) are collected in a
record.
-/

namespace XrayHttp

/-- One IPv4 address as four octets. -/
structure IPv4 where
  a : Nat
  b : Nat
  c : Nat
  d : Nat
deriving DecidableEq

/-- Split a character list at every occurrence of `sep`; mirrors Go
`bytes.Split` / `strings.Split` (an empty input yields one empty entry). -/
def splitChar (sep : Char) : List Char → List Char → List (List Char)
  | [], acc => [acc.reverse]
  | c :: rest, acc =>
      if c = sep then acc.reverse :: splitChar sep rest []
      else splitChar sep rest (c :: acc)

def splitOnChar (sep : Char) (cs : List Char) : List (List Char) :=
  splitChar sep cs []

def allDigits (cs : List Char) : Bool :=
  cs.all (fun c => c.isDigit)

def decimalValue (cs : List Char) : Nat :=
  cs.foldl (fun acc c => acc * 10 + (c.toNat - 48)) 0

/-- One dotted-quad component as Go `net.ParseIP` accepts it: nonempty, all
digits, no leading zero, value at most 255. -/
def parseOctet (cs : List Char) : Option Nat :=
  match cs with
  | [] => none
  | '0' :: _ :: _ => none
  | _ =>
      if allDigits cs then
        let v := decimalValue cs
        if v ≤ 255 then some v else none
      else none

/-- Modelled from the spec: the textual-address parser behind the forwarded
header's "is this a valid IP" predicate (repository code outside `src/`).
IPv4 dotted-quad form; anything else is not an IP. -/
def parseIPv4 (cs : List Char) : Option IPv4 :=
  match splitOnChar '.' cs with
  | [x, y, z, w] =>
      match parseOctet x, parseOctet y, parseOctet z, parseOctet w with
      | some p, some q, some r, some s => some ⟨p, q, r, s⟩
      | _, _, _, _ => none
  | _ => none

/-- Modelled from the spec: a parsed candidate address is either a valid IP
or an opaque domain entry (the "is this a valid IP" predicate is `isIP`). -/
inductive Address
  | ip (v : IPv4)
  | domain (cs : List Char)
deriving DecidableEq

/-- Modelled from the spec: `net.ParseAddress` (outside `src/`) — an entry
that parses as a valid IP yields an IP address, otherwise a domain entry. -/
def parseAddress (cs : List Char) : Address :=
  match parseIPv4 cs with
  | some v => Address.ip v
  | none => Address.domain cs

def Address.isIP : Address → Bool
  | .ip _ => true
  | .domain _ => false

/-- A network address as the listener reports it: a TCP ip:port pair or a
unix socket path (`net.TCPAddr` / `net.UnixAddr`). -/
inductive Addr
  | tcpA (ip : IPv4) (port : Nat)
  | unixA (path : String)
deriving DecidableEq

/-- Errors observable through the embedded interfaces.  `closedPipe` stands
for Go's `io.ErrClosedPipe`; other I/O errors carry an opaque code. -/
inductive FWError
  | closedPipe
  | ioError (code : Nat)
deriving DecidableEq

/-! ### flushWriter (`flushWriter.Write` in the source)

The underlying sink `fw.w` is external: one call to it either returns a
byte count, returns a partial count with an error, or panics.  Whether the
sink implements `http.Flusher`, and whether its `Flush` panics, are likewise
facts about the environment, passed as arguments. -/

/-- Outcome of the one underlying `fw.w.Write(p)` call. -/
inductive UnderlyingWrite
  | ok (n : Nat)
  | fails (n : Nat) (e : FWError)
  | panics
deriving DecidableEq

/-- Outcome of the `f.Flush()` call, when one is made. -/
inductive FlushBehavior
  | ok
  | panics
deriving DecidableEq

/-- Everything one `flushWriter.Write` call does that the rest of the system
can observe: the returned `(n, err)` pair, whether the completion signal is
fired afterwards, whether the underlying sink was touched at all, and
whether `Flush` was called on it. -/
structure WriteEffect where
  n : Nat
  error : Option FWError
  doneAfter : Bool
  sinkTouched : Bool
  flushCalled : Bool
deriving DecidableEq

/-- A Go function body either returns normally or unwinds with a panic;
`panicStop` records the named-return/effect state at the unwind point. -/
inductive RawOutcome
  | ret (e : WriteEffect)
  | panicStop (e : WriteEffect)
deriving DecidableEq

/-- Body of `flushWriter.Write` without its deferred recover: the early
`fw.d.Done()` check, the underlying write (named returns `n, err` keep their
zero values if it panics), and the conditional `Flush` when the write
returned no error and the sink is a flusher. -/
def flushWriterBody (isFlusher : Bool) (uw : UnderlyingWrite)
    (fb : FlushBehavior) (doneFired : Bool) : RawOutcome :=
  if doneFired then
    RawOutcome.ret ⟨0, some FWError.closedPipe, true, false, false⟩
  else
    match uw with
    | .panics => RawOutcome.panicStop ⟨0, none, false, true, false⟩
    | .fails n e => RawOutcome.ret ⟨n, some e, false, true, false⟩
    | .ok n =>
        if isFlusher then
          match fb with
          | .panics => RawOutcome.panicStop ⟨n, none, false, true, true⟩
          | .ok => RawOutcome.ret ⟨n, none, false, true, true⟩
        else RawOutcome.ret ⟨n, none, false, true, false⟩

/-- Full `flushWriter.Write` with its deferred `recover`: a panic anywhere in the
body is caught locally, fires the completion signal (`fw.d.Close()`) and
turns the returned error into `io.ErrClosedPipe`.  The function therefore
always returns a `WriteEffect`, never an unwind. -/
def flushWriterWrite (isFlusher : Bool) (uw : UnderlyingWrite)
    (fb : FlushBehavior) (doneFired : Bool) : WriteEffect :=
  match flushWriterBody isFlusher uw fb doneFired with
  | .ret e => e
  | .panicStop e => { e with doneAfter := true, error := some FWError.closedPipe }

/-! ### NoCopyConnection (`NoCopyConnection.Read` / `Write` in the source)

A counter (`stats.Counter`) is external state reachable only through `Add`;
we model it as the log of deltas passed to `Add`, and a `nil` counter as
`none`.  The wrapped connection's behaviour on one call is supplied as the
`(n, err)` pair it returns. -/

/-- The `(nBytes, err)` pair one underlying `Read`/`Write` call returns. -/
structure CallOutcome where
  n : Nat
  error : Option FWError
deriving DecidableEq

/-- State of `NoCopyConnection` restricted to what its methods touch: the two optional
counters (none = `nil`), each holding the list of deltas `Add` received. -/
structure NoCopyConnection where
  readCounter : Option (List Nat)
  writeCounter : Option (List Nat)
deriving DecidableEq

/-- The guarded counter update: add the delta only when the counter is present. -/
def counterAdd : Option (List Nat) → Nat → Option (List Nat)
  | none, _ => none
  | some l, v => some (l ++ [v])

/-- Method `NoCopyConnection.Read`: forward the underlying result unchanged, and
add the reported count to the read counter when one is present. -/
def NoCopyConnection.read (c : NoCopyConnection) (r : CallOutcome) :
    CallOutcome × NoCopyConnection :=
  (⟨r.n, r.error⟩, { c with readCounter := counterAdd c.readCounter r.n })

/-- Method `NoCopyConnection.Write`: forward the underlying result unchanged, and
add the reported count to the write counter when one is present. -/
def NoCopyConnection.write (c : NoCopyConnection) (r : CallOutcome) :
    CallOutcome × NoCopyConnection :=
  (⟨r.n, r.error⟩, { c with writeCounter := counterAdd c.writeCounter r.n })

/-- One call in an interleaved sequence of `Read`s and `Write`s, tagged with
the outcome the wrapped connection produces for it. -/
inductive CallOp
  | readOp (r : CallOutcome)
  | writeOp (r : CallOutcome)
deriving DecidableEq

def runOps (c : NoCopyConnection) : List CallOp → NoCopyConnection
  | [] => c
  | .readOp r :: rest => runOps (c.read r).2 rest
  | .writeOp r :: rest => runOps (c.write r).2 rest

/-- The byte counts the wrapped connection reported for the read calls. -/
def readDeltas : List CallOp → List Nat
  | [] => []
  | .readOp r :: rest => r.n :: readDeltas rest
  | .writeOp _ :: rest => readDeltas rest

/-- The byte counts the wrapped connection reported for the write calls. -/
def writeDeltas : List CallOp → List Nat
  | [] => []
  | .readOp _ :: rest => writeDeltas rest
  | .writeOp r :: rest => r.n :: writeDeltas rest

/-- The value a counter holds: the sum of the deltas it received. -/
def counterTotal : Option (List Nat) → Option Nat
  | none => none
  | some l => some l.sum

/-! ### Response header state

Both engines expose `Set`-style header writes: Go's
`http.Header.Set(key, value)` replaces every existing value of `key` with
the single `value`, and hertz's `RequestContext.Header(key, value)` is
`Response.Header.Set(key, value)` except that an empty value deletes the
key.  Since the handler only ever uses `Set`/delete, the header state is an
association list with at most one value per key; the engines' own automatic
headers (Date, Content-Type, ...) are outside the model. -/

def setHeader : List (String × String) → String → String → List (String × String)
  | [], k, v => [(k, v)]
  | (k₁, v₁) :: rest, k, v =>
      if k₁ = k then (k, v) :: rest else (k₁, v₁) :: setHeader rest k v

def delHeader : List (String × String) → String → List (String × String)
  | [], _ => []
  | (k₁, v₁) :: rest, k =>
      if k₁ = k then delHeader rest k else (k₁, v₁) :: delHeader rest k

/-- ASCII lowercase letter to uppercase; other characters unchanged. -/
def toUpperChar (c : Char) : Char :=
  if 97 ≤ c.toNat ∧ c.toNat ≤ 122 then Char.ofNat (c.toNat - 32) else c

/-- ASCII uppercase letter to lowercase; other characters unchanged. -/
def toLowerChar (c : Char) : Char :=
  if 65 ≤ c.toNat ∧ c.toNat ≤ 90 then Char.ofNat (c.toNat + 32) else c

/-- Canonical header-key casing shared by Go `textproto` and hertz/fasthttp
normalization: uppercase the first character and every character following
a hyphen, lowercase the rest; the flag says whether the next character
starts a word. -/
def canonChars : Bool → List Char → List Char
  | _, [] => []
  | upper, c :: rest =>
      (if upper then toUpperChar c else toLowerChar c) ::
        canonChars (c = '-') rest

/-- Is this byte allowed in a header field name?  Go
`textproto.validHeaderFieldByte`: digits, letters, and
`! # $ % & ' * + - . ^ _ 96 | ~` (96 is the backquote byte). -/
def isTokenByte (n : Nat) : Bool :=
  (48 ≤ n && n ≤ 57) || (65 ≤ n && n ≤ 90) || (97 ≤ n && n ≤ 122) ||
  n = 33 || (35 ≤ n && n ≤ 39) || n = 42 || n = 43 || n = 45 || n = 46 ||
  n = 94 || n = 95 || n = 96 || n = 124 || n = 126

/-- Does the whole key consist of valid header-name bytes? -/
def isTokenKey (s : String) : Bool :=
  s.data.all (fun c => isTokenByte c.toNat)

/-- The canonical casing of a key, as a string. -/
def canonKey (s : String) : String :=
  ⟨canonChars true s.data⟩

/-- Go `textproto.CanonicalMIMEHeaderKey`, used by `http.Header.Set`: keys
made of valid header bytes are put in canonical casing; a key containing
any invalid byte is returned unchanged. -/
def canonicalMIMEHeaderKey (s : String) : String :=
  if isTokenKey s then canonKey s else s

/-- hertz/fasthttp header-key normalization, used by
`ResponseHeader.Set`/`Del` (default settings): canonical casing applied
unconditionally. -/
def hertzNormalizeKey (s : String) : String :=
  canonKey s

/-- Go `http.Header.Set`: canonicalize the key, then replace its values. -/
def httpHeaderSet (h : List (String × String)) (k v : String) :
    List (String × String) :=
  setHeader h (canonicalMIMEHeaderKey k) v

/-- hertz `RequestContext.Header`: normalize the key; delete it on an empty
value, otherwise `Set` it. -/
def hertzHeader (h : List (String × String)) (k v : String) :
    List (String × String) :=
  if v = "" then delHeader h (hertzNormalizeKey k)
  else setHeader h (hertzNormalizeKey k) v

def httpApply (h : List (String × String)) (ps : List (String × String)) :
    List (String × String) :=
  ps.foldl (fun h p => httpHeaderSet h p.1 p.2) h

def hertzApply (h : List (String × String)) (ps : List (String × String)) :
    List (String × String) :=
  ps.foldl (fun h p => hertzHeader h p.1 p.2) h

def lookupH : List (String × String) → String → Option String
  | [], _ => none
  | (k₁, v₁) :: rest, k => if k₁ = k then some v₁ else lookupH rest k

def keysOf (h : List (String × String)) : List String :=
  h.map Prod.fst

/-- One configured extra response header: a name and its ordered values. -/
structure HeaderEntry where
  name : String
  value : List String
deriving DecidableEq

/-- The transport's protocol settings the handlers read: host allow-list,
required path, extra headers (`Config` in the source package). -/
structure Config where
  host : List String
  path : String
  header : List HeaderEntry
deriving DecidableEq

/-- Modelled from the spec: `Config.isValidHost` lives outside `src/`; the
spec describes it as a check of the request host against the configured
allow-list. -/
def isValidHost (cfg : Config) (h : String) : Bool :=
  cfg.host.contains h

/-- Modelled from the spec: `Config.getNormalizedPath` lives outside `src/`;
the spec describes it as the configured required URL path fragment used as a
literal required front segment of the request path. -/
def getNormalizedPath (cfg : Config) : String :=
  cfg.path

def isPrefixChars : List Char → List Char → Bool
  | [], _ => true
  | _ :: _, [] => false
  | a :: as, b :: bs => a = b && isPrefixChars as bs

/-- Go `strings.HasPrefix s pre`. -/
def hasFront (s : String) (front : String) : Bool :=
  isPrefixChars front.data s.data

/-- The configured (name, value) pairs in configured order, one pair per
value — the order in which the two handler loops issue `Set` calls. -/
def headerPairs (hs : List HeaderEntry) : List (String × String) :=
  (hs.map (fun e => e.value.map (fun v => (e.name, v)))).flatten

/-! ### Remote-address resolution -/

/-- Modelled from the spec: `http_proto.ParseXForwardedFor` lives outside
`src/`; the spec describes it as returning the ordered candidate addresses
parsed from the comma-separated header value, empty when the header is
absent (`Header.Get` yields the empty string). -/
def parseXForwardedFor (s : String) : List Address :=
  if s.data.isEmpty then [] else (splitOnChar ',' s.data).map parseAddress

/-- The `for ... break` scan of `serverNb`: first entry whose
`net.ParseAddress` result is an IP address. -/
def scanXff : List (List Char) → Option IPv4
  | [] => none
  | e :: rest =>
      match parseAddress e with
      | .ip v => some v
      | .domain _ => scanXff rest

/-- Remote-address computation of `serverNb`: the transport destination
(`DestinationFromAddr(c.RemoteAddr())`, which has no failure path), then, if
the `X-Forwarded-For` header is present (non-nil), the first entry parsing
as an IP overrides it with port 0. -/
def resolveRemoteNb (d : IPv4 × Nat) (xff : Option String) : Addr :=
  match xff with
  | none => Addr.tcpA d.1 d.2
  | some s =>
      match scanXff (splitOnChar ',' s.data) with
      | some v => Addr.tcpA v 0
      | none => Addr.tcpA d.1 d.2

/-- Modelled from the spec: `net.ParseDestination` lives outside `src/`; the
spec describes it as parsing the transport peer address into an (IP, port)
pair, with failure possible. -/
def parseDestination (s : String) : Option (IPv4 × Nat) :=
  match splitOnChar ':' s.data with
  | [hostPart, portPart] =>
      match parseIPv4 hostPart with
      | some ip =>
          if allDigits portPart ∧ portPart ≠ [] ∧ decimalValue portPart ≤ 65535 then
            some (ip, decimalValue portPart)
          else none
      | none => none
  | _ => none

/-- Remote-address computation of `ServeHTTP`: start from the listener's own
address, replace it by the parsed transport destination when parsing
succeeds, then let the first forwarded candidate override it (port 0) only
when that first candidate is an IP. -/
def resolveRemoteServeHTTP (localAddr : Addr) (parsed : Option (IPv4 × Nat))
    (xff : String) : Addr :=
  let r0 := match parsed with
    | none => localAddr
    | some d => Addr.tcpA d.1 d.2
  match parseXForwardedFor xff with
  | [] => r0
  | a :: _ =>
      match a with
      | .ip v => Addr.tcpA v 0
      | .domain _ => r0

/-! ### The two request handlers -/

/-- What one handled request leaves behind: response status, the header
lines the handler wrote, whether it flushed, whether the per-connection
callback (`l.handler`) was invoked, and the local/remote addresses given to
the connection handed to that callback (meaningful only when it was
invoked; on a 404 they are left at the listener's address). -/
structure HandlerOutcome where
  status : Nat
  headers : List (String × String)
  flushed : Bool
  handlerInvoked : Bool
  connLocal : Addr
  connRemote : Addr
deriving DecidableEq

def notFoundOutcome (localAddr : Addr) : HandlerOutcome :=
  ⟨404, [], false, false, localAddr, localAddr⟩

/-- A request as `ServeHTTP` sees it: `request.Host`, `request.URL.Path`,
the raw `request.RemoteAddr` string, and the `X-Forwarded-For` value
(`Header.Get`: empty string when absent). -/
structure HttpRequest where
  host : String
  urlPath : String
  remoteAddr : String
  xff : String
deriving DecidableEq

/-- Handler `Listener.ServeHTTP`: validate host then path (404 and stop on either
failure); set `Cache-Control: no-store`, `Set` each configured header value
in order, write status 200, flush when the writer is a flusher; resolve the
remote address (parse failure falls back to the listener's address, then
the forwarded-header override); hand the bridged connection to
`l.handler`. -/
def serveHTTP (cfg : Config) (localAddr : Addr) (isFlusher : Bool)
    (req : HttpRequest) : HandlerOutcome :=
  if !isValidHost cfg req.host then notFoundOutcome localAddr
  else if !hasFront req.urlPath (getNormalizedPath cfg) then notFoundOutcome localAddr
  else
    let hs := httpApply (httpHeaderSet [] ("Cache-Control") ("no-store")) (headerPairs cfg.header)
    let remote := resolveRemoteServeHTTP localAddr (parseDestination req.remoteAddr) req.xff
    ⟨200, hs, isFlusher, true, localAddr, remote⟩

/-- A request as `serverNb` sees it: host and path from the hertz request
context, the destination derived from the raw connection's remote address
(no failure path), and the `X-Forwarded-For` bytes (`GetHeader`: nil when
absent). -/
structure NbRequest where
  host : String
  path : String
  remoteDest : IPv4 × Nat
  xff : Option String
deriving DecidableEq

/-- Handler `Listener.serverNb`: validate host then path (`AbortWithStatus(404)` on
either failure); write `Cache-Control: no-store` and the configured headers
through hertz's `Header` (delete on empty value, `Set` otherwise), status
200, unconditional flush; resolve the remote address with the in-order
forwarded scan; hand the bridged connection to `l.handler`. -/
def serverNb (cfg : Config) (localAddr : Addr) (req : NbRequest) :
    HandlerOutcome :=
  if !isValidHost cfg req.host then notFoundOutcome localAddr
  else if !hasFront req.path (getNormalizedPath cfg) then notFoundOutcome localAddr
  else
    let hs := hertzApply (hertzHeader [] ("Cache-Control") ("no-store")) (headerPairs cfg.header)
    let remote := resolveRemoteNb req.remoteDest req.xff
    ⟨200, hs, true, true, localAddr, remote⟩

/-! ### The listen entry point -/

/-- Address value `net.Address`: an IP or a domain (the accessor of the wrong family
aborts abnormally). -/
inductive GoAddress
  | ipAddr (v : IPv4)
  | domainAddr (d : String)
deriving DecidableEq

/-- The `ProtocolSettings` field of the stream settings handed to `Listen`:
either this transport's `*Config` or a value of some other type, on which
the unchecked type assertion `streamSettings.ProtocolSettings.(*Config)`
aborts abnormally. -/
inductive ProtocolSettingsV
  | httpCfg (c : Config)
  | otherSettings
deriving DecidableEq

/-- The listener value `Listen` builds: its local address and config (the
engine/handler wiring carries no further observable state for the claims). -/
structure ListenerModel where
  localAddr : Addr
  config : Config
deriving DecidableEq

/-- How one `Listen` call ends: a normal Go return of the
`(internet.Listener, error)` pair, or an abnormal termination (panic). -/
inductive ListenResult
  | ret (l : Option ListenerModel) (error : Option Nat)
  | panicked
deriving DecidableEq

/-- Entry point `Listen`: assert the protocol settings to `*Config` (panic on any other
type), build the listener with a unix address when `port == 0` and a TCP
address otherwise (the address accessors `Domain()`/`IP()` abort on the
wrong address family), start the engine in the background, and return the
listener with a nil error — there is no code path returning a non-nil
error. -/
def ListenF (address : GoAddress) (port : Nat) (ps : ProtocolSettingsV) :
    ListenResult :=
  match ps with
  | .otherSettings => ListenResult.panicked
  | .httpCfg c =>
      if port = 0 then
        match address with
        | .domainAddr d => ListenResult.ret (some ⟨Addr.unixA d, c⟩) none
        | .ipAddr _ => ListenResult.panicked
      else
        match address with
        | .ipAddr v => ListenResult.ret (some ⟨Addr.tcpA v port, c⟩) none
        | .domainAddr _ => ListenResult.panicked

/-- Does the call report a construction failure the way the spec describes:
a synchronous return with a non-nil error? -/
def isSyncFailure : ListenResult → Bool
  | .ret _ (some _) => true
  | _ => false

/-! ### Claim-side (spec-described) resolution semantics for comparison -/

/-- The IP an entry contributes when it parses as a valid IP. -/
def ipOfEntry (e : List Char) : Option IPv4 :=
  match parseAddress e with
  | .ip v => some v
  | .domain _ => none

/-- The candidates of the forwarded header that are valid IPs, in order. -/
def fwdCandidates (cs : List Char) : List IPv4 :=
  (splitOnChar ',' cs).filterMap ipOfEntry

/-- The resolution rule as the claim states it: split on commas, the first
entry that parses as a valid IP wins (port forced to 0), otherwise keep the
transport-derived fallback. -/
def specScanResolve (fallback : Addr) (s : String) : Addr :=
  match fwdCandidates s.data with
  | v :: _ => Addr.tcpA v 0
  | [] => fallback

/-- First forwarded candidate when it is an IP; `none` when the header
yields no IP in first position. -/
def firstFwdIP (s : String) : Option IPv4 :=
  match parseXForwardedFor s with
  | Address.ip v :: _ => some v
  | _ => none

/-! ### Concrete inputs used by witnesses and counterexamples -/

def cfgW : Config :=
  ⟨["example.com"], "/stream", [⟨"X-A", ["v1", "v2"]⟩]⟩

def localW : Addr := Addr.tcpA ⟨192, 0, 2, 1⟩ 443

def reqW : HttpRequest :=
  ⟨"example.com", "/stream", "9.9.9.9:1234", "nope,10.0.0.1"⟩

def nreqW : NbRequest :=
  ⟨"example.com", "/stream", (⟨9, 9, 9, 9⟩, 1234), some ("nope,10.0.0.1")⟩

def reqBadHost : HttpRequest :=
  ⟨"evil.com", "/stream", "9.9.9.9:1234", ""⟩

def nreqBadHost : NbRequest :=
  ⟨"evil.com", "/stream", (⟨9, 9, 9, 9⟩, 1234), none⟩

/-- A request whose raw peer address does not parse as ip:port. -/
def reqBadPeer : HttpRequest :=
  ⟨"example.com", "/stream", "garbage", ""⟩

end XrayHttp

namespace XrayHttp

/-! ## Theorems -/

/-- Claim C1: while the completion signal has not fired, a panic of the
underlying sink's write is recovered locally inside `flushWriter.Write`: the
completion signal is fired, the call returns zero bytes with the closed-pipe
error, and the call still terminates as a normal return (no unwind leaves
`Write`, as the result is an ordinary `WriteEffect`). -/
theorem bridge_write_panic_recovered (isF : Bool) (fb : FlushBehavior) :
    flushWriterWrite isF UnderlyingWrite.panics fb false =
      ⟨0, some FWError.closedPipe, true, true, false⟩ := rfl

/-- Claim C2: once the completion signal has fired, `flushWriter.Write`
returns zero bytes and the closed-pipe error without touching the underlying
sink (no write, no flush), whatever the sink would have done. -/
theorem bridge_write_after_done (isF : Bool) (uw : UnderlyingWrite)
    (fb : FlushBehavior) :
    flushWriterWrite isF uw fb true =
      ⟨0, some FWError.closedPipe, true, false, false⟩ := rfl

/-- Claim C9: when the underlying write succeeds and the sink is a flusher,
`flushWriter.Write` flushes before returning (and with a well-behaved flush
the call is a plain success returning the written count); when the
underlying write returns an error, no flush is attempted. -/
theorem bridge_flush_policy (n m : Nat) (e : FWError) (isF : Bool)
    (fb : FlushBehavior) :
    (flushWriterWrite true (UnderlyingWrite.ok n) fb false).flushCalled = true ∧
    flushWriterWrite isF (UnderlyingWrite.ok n) FlushBehavior.ok false =
      ⟨n, none, false, true, isF⟩ ∧
    (flushWriterWrite isF (UnderlyingWrite.fails m e) fb false).flushCalled = false := by
  refine ⟨?_, ?_, ?_⟩
  · cases fb <;> rfl
  · cases isF <;> rfl
  · rfl

/-- Running `runOps` on a connection whose two counters are present appends exactly
the reported byte counts to the respective logs. -/
theorem runOps_counters (ops : List CallOp) : ∀ l w : List Nat,
    runOps ⟨some l, some w⟩ ops =
      ⟨some (l ++ readDeltas ops), some (w ++ writeDeltas ops)⟩ := by
  induction ops with
  | nil => intro l w; simp [runOps, readDeltas, writeDeltas]
  | cons op rest ih =>
      intro l w
      cases op with
      | readOp r =>
          show runOps ⟨counterAdd (some l) r.n, some w⟩ rest = _
          rw [show counterAdd (some l) r.n = some (l ++ [r.n]) from rfl, ih]
          simp [readDeltas, writeDeltas]
      | writeOp r =>
          show runOps ⟨some l, counterAdd (some w) r.n⟩ rest = _
          rw [show counterAdd (some w) r.n = some (w ++ [r.n]) from rfl, ih]
          simp [readDeltas, writeDeltas]

/-- Claim C6: with both counters present (starting empty), any interleaved
sequence of reads and writes leaves the read counter holding exactly the sum
of the byte counts the wrapped connection reported for reads — partial and
failing calls included — and the write counter the sum for writes. -/
theorem traffic_counter_totals (ops : List CallOp) :
    counterTotal (runOps ⟨some [], some []⟩ ops).readCounter =
      some (readDeltas ops).sum ∧
    counterTotal (runOps ⟨some [], some []⟩ ops).writeCounter =
      some (writeDeltas ops).sum := by
  rw [runOps_counters ops [] []]
  simp [counterTotal]

/-- Claim C10: `NoCopyConnection.Read`/`Write` return to the caller exactly
the `(n, err)` pair the wrapped connection returned, whatever the counters
are; and a `nil` counter means the call leaves the connection state
untouched (no counter access at all). -/
theorem nocopy_transparent (c : NoCopyConnection) (r : CallOutcome) :
    (c.read r).1 = r ∧ (c.write r).1 = r ∧
    (c.readCounter = none → (c.read r).2 = c) ∧
    (c.writeCounter = none → (c.write r).2 = c) := by
  refine ⟨rfl, rfl, ?_, ?_⟩
  · intro h
    cases c with
    | mk rc wc => simp_all [NoCopyConnection.read, counterAdd]
  · intro h
    cases c with
    | mk rc wc => simp_all [NoCopyConnection.write, counterAdd]

/-- Witness for C10 at a concrete connection with a `nil` read counter. -/
theorem nocopy_transparent_w :
    (NoCopyConnection.read ⟨none, some []⟩ ⟨5, none⟩).2 = ⟨none, some []⟩ ∧
    (NoCopyConnection.read ⟨none, some []⟩ ⟨5, none⟩).1 = ⟨5, none⟩ := by
  have h := nocopy_transparent ⟨none, some []⟩ ⟨5, none⟩
  exact ⟨h.2.2.1 rfl, h.1⟩

/-- Counterexample for C7: on settings whose protocol settings are not this
transport's config — the claim's "bad settings" — `Listen` does not return a
synchronous non-nil error; the unchecked type assertion aborts abnormally
instead. -/
theorem listen_badcfg_cex :
    ListenF (GoAddress.ipAddr ⟨127, 0, 0, 1⟩) 80 ProtocolSettingsV.otherSettings =
      ListenResult.panicked ∧
    isSyncFailure
      (ListenF (GoAddress.ipAddr ⟨127, 0, 0, 1⟩) 80 ProtocolSettingsV.otherSettings) =
      false := by
  decide

/-- Claim C7 (amended): `Listen` never reports a construction failure as a
synchronous non-nil error; every normal return carries a nil error and a
listener — so a caller receiving nil error may indeed assume a listener
exists — while settings of the wrong protocol type end in an abnormal
termination rather than an error return. -/
theorem listen_amended (address : GoAddress) (port : Nat)
    (ps : ProtocolSettingsV) :
    isSyncFailure (ListenF address port ps) = false ∧
    (∀ l e, ListenF address port ps = ListenResult.ret l e →
      e = none ∧ l.isSome = true) ∧
    (ps = ProtocolSettingsV.otherSettings →
      ListenF address port ps = ListenResult.panicked) := by
  cases ps with
  | otherSettings =>
      refine ⟨rfl, ?_, fun _ => rfl⟩
      intro l e h
      exact absurd h (by simp [ListenF])
  | httpCfg c =>
      refine ⟨?_, ?_, ?_⟩
      · by_cases hp : port = 0 <;> cases address <;> simp [ListenF, isSyncFailure, hp]
      · intro l e h
        by_cases hp : port = 0 <;> cases address <;>
          simp_all [ListenF] <;> simp [← h.1]
      · intro h; exact absurd h (by simp)

/-- Witness for C7 (amended): concrete well-typed settings and concrete bad
settings. -/
theorem listen_amended_w :
    isSyncFailure
      (ListenF (GoAddress.ipAddr ⟨10, 0, 0, 1⟩) 443 ProtocolSettingsV.otherSettings) =
      false ∧
    ListenF (GoAddress.ipAddr ⟨10, 0, 0, 1⟩) 443 ProtocolSettingsV.otherSettings =
      ListenResult.panicked := by
  have h := listen_amended (GoAddress.ipAddr ⟨10, 0, 0, 1⟩) 443
    ProtocolSettingsV.otherSettings
  exact ⟨h.1, h.2.2 rfl⟩

/-- Splitting always produces at least one entry. -/
theorem splitChar_ne_nil (sep : Char) (cs : List Char) :
    ∀ acc, splitChar sep cs acc ≠ [] := by
  induction cs with
  | nil => intro acc; simp [splitChar]
  | cons c rest ih =>
      intro acc
      by_cases h : c = sep
      · simp [splitChar, h]
      · simpa [splitChar, h] using ih (c :: acc)

/-- The break-on-first-IP scan equals the head of the valid-IP candidates. -/
theorem scanXff_eq_head (es : List (List Char)) :
    scanXff es = (es.filterMap ipOfEntry).head? := by
  induction es with
  | nil => rfl
  | cons e es ih =>
      cases hp : parseAddress e with
      | ip v => simp [scanXff, hp, ipOfEntry]
      | domain cs => simp [scanXff, hp, ipOfEntry, ih]

/-- Counterexample for C3: for the forwarded header `"nope,10.0.0.1"` the
first entry that parses as a valid IP is `10.0.0.1`, and the hertz variant
resolves to it with port 0 — but the `ServeHTTP` variant keeps the
transport-derived `9.9.9.9:1234`, because it only examines the first entry:
the two variants do not implement the claimed common scan. -/
theorem fwd_scan_cex :
    fwdCandidates reqW.xff.data = [⟨10, 0, 0, 1⟩] ∧
    (serverNb cfgW localW nreqW).connRemote = Addr.tcpA ⟨10, 0, 0, 1⟩ 0 ∧
    (serveHTTP cfgW localW true reqW).connRemote = Addr.tcpA ⟨9, 9, 9, 9⟩ 1234 ∧
    (serveHTTP cfgW localW true reqW).connRemote ≠ Addr.tcpA ⟨10, 0, 0, 1⟩ 0 := by
  decide

/-- Claim C3 (amended): the hertz variant (`serverNb`) implements the
claimed resolution — split the present forwarded header on commas and use
the first entry parsing as a valid IP, port forced to 0, otherwise keep the
transport-derived address.  The `ServeHTTP` variant instead considers only
the first entry: a valid-IP first entry is used with port 0, and otherwise
the transport-derived address is retained even when a later entry is a
valid IP. -/
theorem fwd_scan_amended (d : IPv4 × Nat) (s : String) (localAddr : Addr) :
    resolveRemoteNb d (some s) = specScanResolve (Addr.tcpA d.1 d.2) s ∧
    resolveRemoteServeHTTP localAddr (some d) s =
      (match (splitOnChar ',' s.data).head? with
       | some e =>
           match parseIPv4 e with
           | some v => Addr.tcpA v 0
           | none => Addr.tcpA d.1 d.2
       | none => Addr.tcpA d.1 d.2) := by
  constructor
  · rw [resolveRemoteNb, specScanResolve, fwdCandidates, scanXff_eq_head]
    cases h : (splitOnChar ',' s.data).filterMap ipOfEntry with
    | nil => simp [h]
    | cons v vs => simp [h]
  · by_cases he : s.data.isEmpty
    · have h0 : s.data = [] := by simpa using he
      simp [resolveRemoteServeHTTP, parseXForwardedFor, he, h0, splitOnChar,
        splitChar, parseIPv4]
    · obtain ⟨e, es, hsplit⟩ : ∃ e es, splitOnChar ',' s.data = e :: es := by
        cases h' : splitOnChar ',' s.data with
        | nil => exact absurd h' (splitChar_ne_nil ',' s.data [])
        | cons e es => exact ⟨e, es, rfl⟩
      simp only [resolveRemoteServeHTTP, parseXForwardedFor, he, hsplit,
        Bool.false_eq_true, if_false, List.map_cons, List.head?_cons]
      cases hp : parseIPv4 e with
      | some v => simp [parseAddress, hp]
      | none => simp [parseAddress, hp]

/-- Unfolding of `serveHTTP` on a validated request. -/
theorem serveHTTP_validated (cfgv : Config) (localAddr : Addr) (fl : Bool)
    (req : HttpRequest)
    (hh : isValidHost cfgv req.host = true)
    (hp : hasFront req.urlPath (getNormalizedPath cfgv) = true) :
    serveHTTP cfgv localAddr fl req =
      ⟨200,
       httpApply (httpHeaderSet [] ("Cache-Control") ("no-store")) (headerPairs cfgv.header),
       fl, true, localAddr,
       resolveRemoteServeHTTP localAddr (parseDestination req.remoteAddr) req.xff⟩ := by
  simp [serveHTTP, hh, hp]

/-- Claim C5: a request failing the host allow-list check or the path front
check gets status 404 with no header writes, no flush, and no invocation of
the per-connection callback, in both engine variants. -/
theorem reject_unvalidated (cfgv : Config) (localAddr : Addr) (fl : Bool)
    (req : HttpRequest) (nreq : NbRequest)
    (h1 : isValidHost cfgv req.host = false ∨
      hasFront req.urlPath (getNormalizedPath cfgv) = false)
    (h2 : isValidHost cfgv nreq.host = false ∨
      hasFront nreq.path (getNormalizedPath cfgv) = false) :
    serveHTTP cfgv localAddr fl req = notFoundOutcome localAddr ∧
    serverNb cfgv localAddr nreq = notFoundOutcome localAddr ∧
    (notFoundOutcome localAddr).status = 404 ∧
    (notFoundOutcome localAddr).handlerInvoked = false ∧
    (notFoundOutcome localAddr).headers = [] ∧
    (notFoundOutcome localAddr).flushed = false := by
  refine ⟨?_, ?_, rfl, rfl, rfl, rfl⟩
  · rcases h1 with h | h
    · simp [serveHTTP, h]
    · by_cases hh : isValidHost cfgv req.host <;> simp [serveHTTP, h, hh]
  · rcases h2 with h | h
    · simp [serverNb, h]
    · by_cases hh : isValidHost cfgv nreq.host <;> simp [serverNb, h, hh]

/-- Witness for C5 at a concrete request whose host is outside the
allow-list. -/
theorem reject_unvalidated_w :
    serveHTTP cfgW localW true reqBadHost = notFoundOutcome localW ∧
    serverNb cfgW localW nreqBadHost = notFoundOutcome localW := by
  have h := reject_unvalidated cfgW localW true reqBadHost nreqBadHost
    (Or.inl (by decide)) (Or.inl (by decide))
  exact ⟨h.1, h.2.1⟩

/-- Claim C8: when parsing the transport peer address fails, `ServeHTTP`
still serves the request — status 200, callback invoked — with the remote
address resolved exactly as if the transport-derived address were the
listener's own bound address; in particular, when the forwarded header
contributes no leading valid IP, the reported remote is the listener's
address itself. -/
theorem parse_failure_fallback (cfgv : Config) (localAddr : Addr) (fl : Bool)
    (req : HttpRequest)
    (hh : isValidHost cfgv req.host = true)
    (hp : hasFront req.urlPath (getNormalizedPath cfgv) = true)
    (hparse : parseDestination req.remoteAddr = none) :
    (serveHTTP cfgv localAddr fl req).handlerInvoked = true ∧
    (serveHTTP cfgv localAddr fl req).status = 200 ∧
    (serveHTTP cfgv localAddr fl req).connRemote =
      resolveRemoteServeHTTP localAddr none req.xff ∧
    (firstFwdIP req.xff = none →
      (serveHTTP cfgv localAddr fl req).connRemote = localAddr) := by
  rw [serveHTTP_validated cfgv localAddr fl req hh hp]
  refine ⟨rfl, rfl, by rw [hparse], ?_⟩
  intro hf
  rw [hparse]
  rw [resolveRemoteServeHTTP]
  cases hx : parseXForwardedFor req.xff with
  | nil => rfl
  | cons a rest =>
      cases a with
      | ip v =>
          exact absurd hf (by simp [firstFwdIP, hx])
      | domain cs => rfl

/-- Witness for C8 at a concrete unparseable peer address. -/
theorem parse_failure_fallback_w :
    (serveHTTP cfgW localW true reqBadPeer).connRemote = localW ∧
    (serveHTTP cfgW localW true reqBadPeer).handlerInvoked = true := by
  have h := parse_failure_fallback cfgW localW true reqBadPeer
    (by decide) (by decide) (by decide)
  exact ⟨h.2.2.2 (by decide), h.1⟩

theorem lookupH_none_of_not_mem (h : List (String × String)) (k : String)
    (hk : k ∉ keysOf h) : lookupH h k = none := by
  induction h with
  | nil => rfl
  | cons p rest ih =>
      obtain ⟨k₁, v₁⟩ := p
      simp only [keysOf, List.map_cons, List.mem_cons] at hk
      push_neg at hk
      have h1 : ¬k₁ = k := fun hx => hk.1 hx.symm
      simpa [lookupH, h1] using ih (by simpa [keysOf] using hk.2)

end XrayHttp
